import Mathlib

/-!
Verification of the job-queue / result-cache subsystem of the kiyosakiAI
backend (`backend/jobs/queue.py`, `backend/jobs/synchronizer.py`,
`backend/router_analysis.py`), as a shallow embedding in Lean 4.

Modelling conventions:
* Python JSON-serializable values are the inductive `JVal`; Python `dict`
  truthiness (`if cached_result:`) is `pyTruthy`.
* Wall-clock instants (`time.time()`, `datetime.now()`) are abstract `Int`
  parameters threaded explicitly; `time.time() - cached_at > ttl` becomes
  integer arithmetic.
* The on-disk cache directory is a finite partial map `String → Option
  CacheFile`; a file either parses as a JSON object with the optional fields
  the code reads (`result`, `cached_at`, `ttl`) or is `garbage` (any bytes on
  which `json.load`, the field accesses, or the arithmetic raise — the code
  treats all of these identically through its bare `except`).
* `hashlib.md5(...).hexdigest()` is implemented in full (RFC 1321) over the
  UTF-8 bytes of the input, as `md5Hex`.
-/

/-- JSON-like values: the payloads stored in the result cache and on job
records (Python `dict`/`list`/`str`/numbers/`bool`/`None`). -/
inductive JVal : Type
| jnull : JVal
| jbool : Bool → JVal
| jnum : Int → JVal
| jstr : String → JVal
| jarr : List JVal → JVal
| jobj : List (String × JVal) → JVal

/-- Python truthiness of a `JVal` (`if cached_result:` in `analyze_async`):
`None`, `False`, `0`, `""`, `[]` and `{}` are falsy, everything else truthy. -/
def pyTruthy : JVal → Bool
| JVal.jnull => false
| JVal.jbool b => b
| JVal.jnum n => decide (n ≠ 0)
| JVal.jstr s => decide (s.length ≠ 0)
| JVal.jarr l => decide (l.length ≠ 0)
| JVal.jobj l => decide (l.length ≠ 0)

/-- Python truthiness of an `Optional[Dict]`: `None` is falsy. -/
def pyTruthyOpt : Option JVal → Bool
| none => false
| some v => pyTruthy v

/-- One cache file under `backend/cache/`, keyed by cache key (the code uses
file `key ++ ".json"`; we key the map by `key` directly).
`parsed fields` models a file whose contents `json.load` turns into a dict,
with the three optional fields `get_cached_result` reads; `garbage` models a
file on which loading or processing raises (corrupt bytes, non-dict JSON,
non-numeric `cached_at`/`ttl` — all funneled into the same bare `except`). -/
inductive CacheFile : Type
| garbage : String → CacheFile
| parsed : Option JVal → Option Int → Option Int → CacheFile

/-- The field `result` of a parsed cache file (`cache_data.get("result")`). -/
def CacheFile.resultField : CacheFile → Option JVal
| CacheFile.garbage _ => none
| CacheFile.parsed r _ _ => r

/-- The cache directory: key → file, `none` when no file exists. -/
def CacheState : Type := String → Option CacheFile

/-- The empty cache directory. -/
def emptyCache : CacheState := fun _ => none

/-- Write (create or overwrite) the file for `k`. -/
def cacheWrite (k : String) (f : CacheFile) (st : CacheState) : CacheState :=
  fun k2 => if k2 = k then some f else st k2

/-- `os.remove` of the file for `k`. -/
def cacheRemove (k : String) (st : CacheState) : CacheState :=
  fun k2 => if k2 = k then none else st k2

/-- `cache_result(key, result, ttl_seconds)` from `backend/jobs/synchronizer.py`:
persists `{"result": result, "cached_at": time.time(), "ttl": ttl_seconds}`
into the file for `key`, unconditionally replacing any existing file.
`now` is the value of `time.time()` at the call. -/
def cache_result (key : String) (result : JVal) (ttl_seconds : Int)
    (now : Int) (st : CacheState) : CacheState :=
  cacheWrite key (CacheFile.parsed (some result) (some now) (some ttl_seconds)) st

/-- `get_cached_result(key)` from `backend/jobs/synchronizer.py`: returns the
cached value if still valid, together with the cache directory after the
call's side effects. Mirrors the code line by line:
no file → `None`; unreadable file → remove, `None`; otherwise read
`cached_at` (default `0`) and `ttl` (default `3600`), expire-and-remove when
`now - cached_at > ttl`, else return `cache_data.get("result")`. -/
def get_cached_result (key : String) (now : Int) (st : CacheState) :
    Option JVal × CacheState :=
  match st key with
  | none => (none, st)
  | some (CacheFile.garbage _) => (none, cacheRemove key st)
  | some (CacheFile.parsed res ca ttl) =>
    let cached_at := ca.getD 0
    let t := ttl.getD 3600
    if now - cached_at > t then (none, cacheRemove key st)
    else (res, st)

/-! ## MD5 (`hashlib.md5(...).hexdigest()`), RFC 1321, over UTF-8 bytes -/

/-- UTF-8 encoding of one Unicode code point (Python `str.encode()`). -/
def utf8Bytes (c : Nat) : List Nat :=
  if c < 0x80 then [c]
  else if c < 0x800 then
    [0xC0 ||| (c >>> 6), 0x80 ||| (c &&& 0x3F)]
  else if c < 0x10000 then
    [0xE0 ||| (c >>> 12), 0x80 ||| ((c >>> 6) &&& 0x3F), 0x80 ||| (c &&& 0x3F)]
  else
    [0xF0 ||| (c >>> 18), 0x80 ||| ((c >>> 12) &&& 0x3F),
     0x80 ||| ((c >>> 6) &&& 0x3F), 0x80 ||| (c &&& 0x3F)]

/-- The UTF-8 bytes of a string (`key_string.encode()`). -/
def strBytes (s : String) : List Nat := s.data.flatMap (fun c => utf8Bytes c.toNat)

/-- `k` little-endian bytes of `n` (truncating above `256 ^ k`). -/
def leBytes : Nat → Nat → List Nat
| 0, _ => []
| k+1, n => (n % 256) :: leBytes k (n / 256)

/-- MD5 padding: append `0x80`, zero-fill to 56 mod 64, then the 64-bit
little-endian bit length. -/
def md5Pad (msg : List Nat) : List Nat :=
  let len := msg.length
  msg ++ [0x80] ++ List.replicate ((120 - (len + 1) % 64) % 64) 0 ++ leBytes 8 (len * 8)

/-- Split a (padded) byte list into its 64-byte blocks. -/
def chunks64 (l : List Nat) : List (List Nat) :=
  (List.range (l.length / 64)).map (fun i => ((l.drop (64 * i)).take 64))

/-- The 64 MD5 round constants `K[i] = floor(abs(sin(i+1)) * 2^32)`. -/
def md5K : List Nat :=
  [0xd76aa478, 0xe8c7b756, 0x242070db, 0xc1bdceee,
   0xf57c0faf, 0x4787c62a, 0xa8304613, 0xfd469501,
   0x698098d8, 0x8b44f7af, 0xffff5bb1, 0x895cd7be,
   0x6b901122, 0xfd987193, 0xa679438e, 0x49b40821,
   0xf61e2562, 0xc040b340, 0x265e5a51, 0xe9b6c7aa,
   0xd62f105d, 0x02441453, 0xd8a1e681, 0xe7d3fbc8,
   0x21e1cde6, 0xc33707d6, 0xf4d50d87, 0x455a14ed,
   0xa9e3e905, 0xfcefa3f8, 0x676f02d9, 0x8d2a4c8a,
   0xfffa3942, 0x8771f681, 0x6d9d6122, 0xfde5380c,
   0xa4beea44, 0x4bdecfa9, 0xf6bb4b60, 0xbebfbc70,
   0x289b7ec6, 0xeaa127fa, 0xd4ef3085, 0x04881d05,
   0xd9d4d039, 0xe6db99e5, 0x1fa27cf8, 0xc4ac5665,
   0xf4292244, 0x432aff97, 0xab9423a7, 0xfc93a039,
   0x655b59c3, 0x8f0ccc92, 0xffeff47d, 0x85845dd1,
   0x6fa87e4f, 0xfe2ce6e0, 0xa3014314, 0x4e0811a1,
   0xf7537e82, 0xbd3af235, 0x2ad7d2bb, 0xeb86d391]

/-- The 64 MD5 per-round left-rotation amounts. -/
def md5S : List Nat :=
  [7, 12, 17, 22, 7, 12, 17, 22, 7, 12, 17, 22, 7, 12, 17, 22,
   5, 9, 14, 20, 5, 9, 14, 20, 5, 9, 14, 20, 5, 9, 14, 20,
   4, 11, 16, 23, 4, 11, 16, 23, 4, 11, 16, 23, 4, 11, 16, 23,
   6, 10, 15, 21, 6, 10, 15, 21, 6, 10, 15, 21, 6, 10, 15, 21]

/-- `2 ^ 32`: all MD5 word arithmetic is modulo this. -/
def M32 : Nat := 4294967296

/-- 32-bit left rotation. -/
def rotl32 (x c : Nat) : Nat := ((x <<< c) ||| (x >>> (32 - c))) % M32

/-- Word `g` (little-endian) of a 64-byte block. -/
def blockWord (block : List Nat) (g : Nat) : Nat :=
  block.getD (4 * g) 0 + 256 * block.getD (4 * g + 1) 0 +
  65536 * block.getD (4 * g + 2) 0 + 16777216 * block.getD (4 * g + 3) 0

/-- The four MD5 chaining words. -/
structure MD5St where
  a : Nat
  b : Nat
  c : Nat
  d : Nat

/-- One of the 64 MD5 rounds on one block. -/
def md5Round (block : List Nat) (st : MD5St) (i : Nat) : MD5St :=
  let fg : Nat × Nat :=
    if i < 16 then ((st.b &&& st.c) ||| ((0xFFFFFFFF ^^^ st.b) &&& st.d), i)
    else if i < 32 then ((st.d &&& st.b) ||| ((0xFFFFFFFF ^^^ st.d) &&& st.c), (5 * i + 1) % 16)
    else if i < 48 then (st.b ^^^ st.c ^^^ st.d, (3 * i + 5) % 16)
    else (st.c ^^^ (st.b ||| (0xFFFFFFFF ^^^ st.d)), (7 * i) % 16)
  let f2 := (fg.1 + st.a + md5K.getD i 0 + blockWord block fg.2) % M32
  ⟨st.d, (st.b + rotl32 f2 (md5S.getD i 0)) % M32, st.b, st.c⟩

/-- Process one 64-byte block. -/
def md5Block (st : MD5St) (block : List Nat) : MD5St :=
  let e := (List.range 64).foldl (md5Round block) st
  ⟨(st.a + e.a) % M32, (st.b + e.b) % M32, (st.c + e.c) % M32, (st.d + e.d) % M32⟩

/-- The MD5 initialization vector. -/
def md5Init : MD5St := ⟨0x67452301, 0xefcdab89, 0x98badcfe, 0x10325476⟩

/-- The 16 digest bytes of a message. -/
def md5DigestBytes (msg : List Nat) : List Nat :=
  let st := (chunks64 (md5Pad msg)).foldl md5Block md5Init
  leBytes 4 st.a ++ leBytes 4 st.b ++ leBytes 4 st.c ++ leBytes 4 st.d

/-- The 32 hex digits (as numbers `< 16`) of the digest, big nibble first. -/
def md5Nibbles (msg : List Nat) : List Nat :=
  (md5DigestBytes msg).flatMap (fun b => [b / 16 % 16, b % 16])

/-- The lowercase hex character for a nibble. -/
def hexDigitChar (n : Nat) : Char :=
  (['0', '1', '2', '3', '4'] ++ ['5', '6', '7', '8', '9'] ++
    ['a', 'b', 'c'] ++ ['d', 'e', 'f']).getD n '0'

/-- `hashlib.md5(s.encode()).hexdigest()`. -/
def md5Hex (s : String) : String :=
  String.mk ((md5Nibbles (strBytes s)).map hexDigitChar)

/-! ## Python `str()` of ints and bools, and the cache key -/

/-- Decimal digit character. -/
def decDigitChar (n : Nat) : Char :=
  (['0', '1', '2', '3', '4'] ++ ['5', '6', '7', '8', '9']).getD n '0'

/-- Little-endian decimal digits of `n` with explicit fuel (kernel-reducible,
unlike `Nat.digits`); `natDigsAux n n` is exact since `n` digits suffice. -/
def natDigsAux : Nat → Nat → List Nat
| 0, _ => []
| fuel+1, n => if n = 0 then [] else n % 10 :: natDigsAux fuel (n / 10)

/-- Little-endian decimal digits of `n` (empty for `0`). -/
def natDigs (n : Nat) : List Nat := natDigsAux n n

/-- Python `str(n)` for a nonnegative integer. -/
def natStr (n : Nat) : String :=
  if n = 0 then "0" else String.mk (((natDigs n).map decDigitChar).reverse)

/-- Python `str(i)` for `int` (digits, with a leading minus sign if negative). -/
def intStr (i : Int) : String :=
  if i < 0 then "-" ++ natStr i.natAbs else natStr i.natAbs

/-- Python `str(b)` for `bool`: `"True"` / `"False"` (as in an f-string). -/
def pyBoolStr (b : Bool) : String := if b then "True" else "False"

/-- The f-string `f"{address}_{radius_m}_{include_long_context}"` from
`generate_cache_key`. -/
def keyString (address : String) (radius_m : Int) (include_long_context : Bool) : String :=
  address ++ "_" ++ intStr radius_m ++ "_" ++ pyBoolStr include_long_context

/-- `generate_cache_key(address, radius_m, include_long_context)` from
`backend/jobs/synchronizer.py`: the MD5 hexdigest of the key string. -/
def generate_cache_key (address : String) (radius_m : Int)
    (include_long_context : Bool) : String :=
  md5Hex (keyString address radius_m include_long_context)

/-! ## Job queue (`backend/jobs/queue.py`) -/

/-- One entry of the in-memory `_jobs_store` dict (local regime). Timestamps
(`datetime.now().isoformat()`) are abstract `Int` instants. -/
structure JobRecord where
  status : String
  created_at : Option Int
  address : String
  radius_m : Int
  include_long_context : Bool
  result : Option JVal
  error : Option String
  started_at : Option Int
  finished_at : Option Int
  failed_at : Option Int

/-- The in-process job table `_jobs_store`. -/
def JobStore : Type := String → Option JobRecord

/-- The empty job table. -/
def emptyJobs : JobStore := fun _ => none

/-- Store (create or overwrite) the record for a job id. -/
def jobsWrite (jid : String) (r : JobRecord) (st : JobStore) : JobStore :=
  fun j => if j = jid then some r else st j

/-- The record `enqueue_analysis` installs before scheduling the task:
`{"status": "queued", "created_at": now, ..., "result": None, "error": None}`. -/
def initialRecord (address : String) (radius_m : Int) (include_long_context : Bool)
    (now : Int) : JobRecord :=
  { status := "queued", created_at := some now, address := address,
    radius_m := radius_m, include_long_context := include_long_context,
    result := none, error := none,
    started_at := none, finished_at := none, failed_at := none }

/-- Backend selection made once in `JobQueue.__init__`:
`self.use_redis = REDIS_AVAILABLE and self.redis_url`. -/
inductive Backend : Type
| durable : Backend
| localMem : Backend

/-- `JobQueue.__init__`: durable (RQ over Redis) iff the `redis`/`rq` import
succeeded and `REDIS_URL` is set; otherwise the in-memory fallback. -/
def chooseBackend (redisAvailable : Bool) (redisUrl : Option String) : Backend :=
  if redisAvailable && redisUrl.isSome then Backend.durable else Backend.localMem

/-- Local-regime `enqueue_analysis`: generate a fresh id (`uuid.uuid4()`,
passed in as `jid`), record the `queued` entry, schedule `_run_async_job`
(fire-and-forget — the asynchronous part is modelled separately by
`run_async_job`), and return the id immediately. -/
def enqueue_analysis (jid : String) (address : String) (radius_m : Int)
    (include_long_context : Bool) (now : Int) (st : JobStore) : String × JobStore :=
  (jid, jobsWrite jid (initialRecord address radius_m include_long_context now) st)

/-- Outcome of the orchestrator call `run(address, radius_m,
include_long_context)` inside `_run_async_job`: either the structured result
(`result.dict()`) or a raised exception rendered by `str(e)`. -/
inductive RunOutcome : Type
| ok : JVal → RunOutcome
| err : String → RunOutcome

/-- The field writes `_run_async_job` performs, in program order, as record
transformers: first the `started` pair; then, depending on the orchestrator
outcome, the `finished` triple or (from the `except` clause) the `failed`
triple. `t1` is the instant of `started_at`, `t2` of `finished_at`/`failed_at`. -/
def runSteps (o : RunOutcome) (t1 t2 : Int) : List (JobRecord → JobRecord) :=
  [fun r => { r with status := "started" },
   fun r => { r with started_at := some t1 }] ++
  (match o with
   | RunOutcome.ok v =>
     [fun r => { r with status := "finished" },
      fun r => { r with result := some v },
      fun r => { r with finished_at := some t2 }]
   | RunOutcome.err e =>
     [fun r => { r with status := "failed" },
      fun r => { r with error := some e },
      fun r => { r with failed_at := some t2 }])

/-- All states the job record passes through while `_run_async_job` runs,
starting from the record `enqueue_analysis` installed: the snapshot after
each individual field write. -/
def recordTrace (o : RunOutcome) (t1 t2 : Int) (init : JobRecord) : List JobRecord :=
  (runSteps o t1 t2).scanl (fun r f => f r) init

/-- The record left in `_jobs_store[job_id]` once `_run_async_job` returns.
The `try` body performs the `started` writes and then the orchestrator call;
on an exception the `except` clause performs the `failed` writes. By
construction this function is total: the exception is consumed here and never
escapes `_run_async_job`. -/
def run_async_job (o : RunOutcome) (t1 t2 : Int) (init : JobRecord) : JobRecord :=
  ((runSteps o t1 t2).foldl (fun r f => f r) init)

/-- Collapse consecutive duplicates (the status values observed across the
trace, as a sequence of distinct successive statuses). -/
def squeezeRuns : List String → List String
| [] => []
| [x] => [x]
| x :: y :: t => if x = y then squeezeRuns (y :: t) else x :: squeezeRuns (y :: t)

/-- Native status vocabulary of an RQ job as reachable for jobs this system
enqueues: `queue.enqueue` is called with no dependencies, no scheduling and
no cancellation anywhere in the repository, so the job only ever reports
these four of RQ's states. -/
inductive RqStatus : Type
| queued : RqStatus
| started : RqStatus
| finished : RqStatus
| failed : RqStatus

/-- The string `job.get_status()` yields for each status. -/
def rqStatusStr : RqStatus → String
| RqStatus.queued => "queued"
| RqStatus.started => "started"
| RqStatus.finished => "finished"
| RqStatus.failed => "failed"

/-- `job.is_finished` / `job.is_failed`. -/
def RqStatus.isFinished : RqStatus → Bool
| RqStatus.finished => true
| _ => false

/-- `job.is_failed`. -/
def RqStatus.isFailed : RqStatus → Bool
| RqStatus.failed => true
| _ => false

/-- An RQ job as fetched by `queue.fetch_job(job_id)`: its native status, its
return value (`job.result`, set once finished), its failure record
(`job.exc_info`), and its timestamps. -/
structure RqJob where
  nativeStatus : RqStatus
  result : Option JVal
  excInfo : Option String
  created_at : Option Int
  started_at : Option Int
  ended_at : Option Int

/-- Python `str(x)` on an `Optional[str]`: `str(None)` is `"None"`. -/
def pyStrOpt : Option String → String
| none => "None"
| some s => s

/-- The status payload `get_job_status` assembles in the durable branch. -/
structure DurableStatus where
  job_id : String
  status : String
  result : Option JVal
  error : Option String

/-- Durable branch of `JobQueue.get_job_status`: `fetch_job` returning `None`
(or any exception in the `try`, collapsed into the same `None` by the bare
`except`) yields not-found; otherwise the dict is built with
`status = job.get_status()`, plus `result = job.result` only when
`job.is_finished`, else `error = str(job.exc_info)` only when `job.is_failed`. -/
def get_job_status_durable (job_id : String) (fetched : Option RqJob) :
    Option DurableStatus :=
  match fetched with
  | none => none
  | some j =>
    some { job_id := job_id,
           status := rqStatusStr j.nativeStatus,
           result := if j.nativeStatus.isFinished then j.result else none,
           error := if j.nativeStatus.isFailed then some (pyStrOpt j.excInfo) else none }

/-- Local branch of `JobQueue.get_job_status`: `_jobs_store.get(job_id)`. -/
def get_job_status_local (job_id : String) (st : JobStore) : Option JobRecord :=
  st job_id

/-! ## HTTP handlers (`backend/router_analysis.py`) -/

/-- The response body of `POST /analyze/async`. -/
structure JobResponse where
  job_id : String
  status : String
  message : String

/-- `analyze_async` (local regime): compute the cache key, read the cache
(with its side effects), and either answer `job_id="cached"` without touching
the dispatcher or enqueue and answer the fresh id. The returned `Bool`
records whether `job_queue.enqueue_analysis` was invoked; `freshJid` is the
`uuid.uuid4()` the dispatcher would mint. -/
def analyze_async (address : String) (radius_m : Int) (include_long_context : Bool)
    (now : Int) (freshJid : String) (cst : CacheState) (jst : JobStore) :
    JobResponse × CacheState × JobStore × Bool :=
  let key := generate_cache_key address radius_m include_long_context
  let rd := get_cached_result key now cst
  if pyTruthyOpt rd.1 then
    ({ job_id := "cached", status := "finished",
       message := "Result retrieved from cache" }, rd.2, jst, false)
  else
    let enq := enqueue_analysis freshJid address radius_m include_long_context now jst
    ({ job_id := enq.1, status := "queued",
       message := "Analysis job has been queued" }, rd.2, enq.2, true)

/-- The cache key the `GET /result/{job_id}` handler builds for its
opportunistic cache write: `f"job_{job_id}"`. -/
def jobResultCacheKey (job_id : String) : String := "job_" ++ job_id

/-- `get_job_result` (local regime), returning either `(status_code, detail)`
of an `HTTPException` or the job record, together with the cache directory
after the handler's opportunistic write: when the looked-up record is
`finished` and its `result` is truthy, the result is written under
`f"job_{job_id}"` with the default TTL of 3600. -/
def get_job_result (job_id : String) (now : Int) (cst : CacheState) (jst : JobStore) :
    Except (Nat × String) JobRecord × CacheState :=
  if job_id = "cached" then
    (Except.error (400, "Cannot get status for cached results"), cst)
  else
    match jst job_id with
    | none => (Except.error (404, "Job not found"), cst)
    | some rec =>
      if rec.status = "finished" && pyTruthyOpt rec.result then
        (Except.ok rec,
         match rec.result with
         | some v => cache_result (jobResultCacheKey job_id) v 3600 now cst
         | none => cst)
      else
        (Except.ok rec, cst)

/-! ## Generic helper lemmas -/

/-- Reading a key other than the one just written sees the old directory. -/
theorem cacheWrite_ne (k k2 : String) (f : CacheFile) (st : CacheState)
    (h : k2 ≠ k) : cacheWrite k f st k2 = st k2 := by
  simp [cacheWrite, h]

/-- Reading the key just written sees the new file. -/
theorem cacheWrite_eq (k : String) (f : CacheFile) (st : CacheState) :
    cacheWrite k f st k = some f := by
  simp [cacheWrite]

/-! ## Claim theorems -/

/-- C2: for every key, `get_cached_result` misses (returns `None`) when no
cache file exists (leaving the directory unchanged), when the file is
unparseable (removing the corrupt file, no exception escaping — the function
is total), and when `now - cached_at > ttl` (removing the stale file);
otherwise it returns the stored `result` field and leaves the directory
unchanged. -/
theorem C2_get_cached_result_contract (k : String) (now : Int) (st : CacheState) :
    (st k = none → get_cached_result k now st = (none, st)) ∧
    (∀ raw, st k = some (CacheFile.garbage raw) →
      get_cached_result k now st = (none, cacheRemove k st)) ∧
    (∀ res ca ttl, st k = some (CacheFile.parsed res ca ttl) →
      now - ca.getD 0 > ttl.getD 3600 →
      get_cached_result k now st = (none, cacheRemove k st)) ∧
    (∀ res ca ttl, st k = some (CacheFile.parsed res ca ttl) →
      ¬(now - ca.getD 0 > ttl.getD 3600) →
      get_cached_result k now st = (res, st)) := by
  refine ⟨?_, ?_, ?_, ?_⟩
  · intro h; simp [get_cached_result, h]
  · intro raw h; simp [get_cached_result, h]
  · intro res ca ttl h hexp; simp [get_cached_result, h, hexp]
  · intro res ca ttl h hfresh; simp [get_cached_result, h, hfresh]

/-- C9 counterexample: the round-trip law does not hold for every `ttl`. With
`ttl_seconds = -1`, `put` immediately followed by `get` (both at instant `0`)
returns a miss, not the stored value: `0 - 0 > -1` already counts as expired. -/
theorem C9_roundtrip_counterexample :
    ¬ (∀ (k : String) (v : JVal) (ttl now : Int) (st : CacheState),
        (get_cached_result k now (cache_result k v ttl now st)).1 = some v) := by
  intro h
  have h2 := h "k" (JVal.jobj []) (-1) 0 emptyCache
  rw [show (get_cached_result "k" 0
        (cache_result "k" (JVal.jobj []) (-1) 0 emptyCache)).1 = none from rfl] at h2
  exact Option.noConfusion h2

/-- C9 (amended: for nonnegative `ttl_seconds`): `cache_result k v ttl`
followed immediately (same `time.time()` instant) by `get_cached_result k`
returns `v` unchanged, and the write unconditionally replaces whatever file
was previously stored under `k`, whatever the prior directory contents. -/
theorem C9_put_get_roundtrip (k : String) (v : JVal) (ttl now : Int)
    (st : CacheState) (h : 0 ≤ ttl) :
    (get_cached_result k now (cache_result k v ttl now st)).1 = some v ∧
    cache_result k v ttl now st k =
      some (CacheFile.parsed (some v) (some now) (some ttl)) := by
  have hneg : ¬ (ttl < 0) := by omega
  constructor
  · simp [get_cached_result, cache_result, cacheWrite, hneg]
  · simp [cache_result, cacheWrite]

/-- C9 witness: the amended round trip at a concrete input — key `"k"`, a
one-field object, `ttl = 3600`, instant `5`, over a directory already holding
a different file under `"k"`. -/
theorem C9_put_get_roundtrip_witness :
    (get_cached_result "k" 5 (cache_result "k" (JVal.jstr "r") 3600 5
        (cacheWrite "k" (CacheFile.garbage "old") emptyCache))).1 =
      some (JVal.jstr "r") ∧
    cache_result "k" (JVal.jstr "r") 3600 5
        (cacheWrite "k" (CacheFile.garbage "old") emptyCache) "k" =
      some (CacheFile.parsed (some (JVal.jstr "r")) (some 5) (some 3600)) :=
  C9_put_get_roundtrip "k" (JVal.jstr "r") 3600 5
    (cacheWrite "k" (CacheFile.garbage "old") emptyCache) (by decide)

/-- C10: asymmetric handling of partially-formed parsed cache files. A parsed
file with no `cached_at` field defaults it to `0`, so whenever `now > ttl`
(always the case for a real wall clock against the 3600-second default) the
file counts as expired and is deleted; but a parsed file with a fresh
`cached_at` and no `result` field yields a miss while the file stays on disk. -/
theorem C10_partial_file_asymmetry (k : String) (now : Int) (st : CacheState) :
    (∀ res ttl, st k = some (CacheFile.parsed res none ttl) →
      now > ttl.getD 3600 →
      get_cached_result k now st = (none, cacheRemove k st)) ∧
    (∀ ca ttl, st k = some (CacheFile.parsed none (some ca) ttl) →
      ¬(now - ca > ttl.getD 3600) →
      get_cached_result k now st = (none, st)) := by
  constructor
  · intro res ttl h hexp
    simp [get_cached_result, h]
    intro h2
    exact absurd h2 (by omega)
  · intro ca ttl h hfresh
    simp [get_cached_result, h, hfresh]

/-- C1: lifecycle of a local job record. Starting from the `queued` record
installed at enqueue time, the successive snapshots written by
`_run_async_job` pass through the statuses `queued`, `started`, and then
exactly one terminal status — `finished` on a normal orchestrator return and
`failed` on a raised exception, never both; at every snapshot `result` and
`error` are mutually exclusive; the terminal record is the last element of
the trace (no transition follows a terminal state), carrying `result` without
`error` when finished and `error` without `result` when failed. -/
theorem C1_local_job_state_machine (address : String) (radius_m : Int)
    (flag : Bool) (t0 t1 t2 : Int) :
    (∀ v : JVal,
      squeezeRuns ((recordTrace (RunOutcome.ok v) t1 t2
          (initialRecord address radius_m flag t0)).map JobRecord.status) =
        ["queued", "started", "finished"] ∧
      (∀ r ∈ recordTrace (RunOutcome.ok v) t1 t2
          (initialRecord address radius_m flag t0),
        r.result = none ∨ r.error = none) ∧
      (recordTrace (RunOutcome.ok v) t1 t2
          (initialRecord address radius_m flag t0)).getLast? =
        some (run_async_job (RunOutcome.ok v) t1 t2
          (initialRecord address radius_m flag t0)) ∧
      (run_async_job (RunOutcome.ok v) t1 t2
          (initialRecord address radius_m flag t0)).status = "finished" ∧
      (run_async_job (RunOutcome.ok v) t1 t2
          (initialRecord address radius_m flag t0)).result = some v ∧
      (run_async_job (RunOutcome.ok v) t1 t2
          (initialRecord address radius_m flag t0)).error = none) ∧
    (∀ e : String,
      squeezeRuns ((recordTrace (RunOutcome.err e) t1 t2
          (initialRecord address radius_m flag t0)).map JobRecord.status) =
        ["queued", "started", "failed"] ∧
      (∀ r ∈ recordTrace (RunOutcome.err e) t1 t2
          (initialRecord address radius_m flag t0),
        r.result = none ∨ r.error = none) ∧
      (recordTrace (RunOutcome.err e) t1 t2
          (initialRecord address radius_m flag t0)).getLast? =
        some (run_async_job (RunOutcome.err e) t1 t2
          (initialRecord address radius_m flag t0)) ∧
      (run_async_job (RunOutcome.err e) t1 t2
          (initialRecord address radius_m flag t0)).status = "failed" ∧
      (run_async_job (RunOutcome.err e) t1 t2
          (initialRecord address radius_m flag t0)).error = some e ∧
      (run_async_job (RunOutcome.err e) t1 t2
          (initialRecord address radius_m flag t0)).result = none) := by
  constructor
  · intro v
    refine ⟨rfl, ?_, rfl, rfl, rfl, rfl⟩
    intro r hr
    simp [recordTrace, runSteps, List.scanl, initialRecord] at hr
    rcases hr with rfl | rfl | rfl | rfl | rfl | rfl <;> simp
  · intro e
    refine ⟨rfl, ?_, rfl, rfl, rfl, rfl⟩
    intro r hr
    simp [recordTrace, runSteps, List.scanl, initialRecord] at hr
    rcases hr with rfl | rfl | rfl | rfl | rfl | rfl <;> simp

/-- C7: when the orchestrator raises, the exception stops at the dispatcher
boundary. `enqueue_analysis` still returns the fresh job id (its return value
does not depend on the job's later outcome), `_run_async_job` returns
normally (it is a total function into records here — the `except` clause
consumes the exception) leaving status `failed` and the stringified exception
in `error` with no `result`, and the status poller then receives that record
as an ordinary lookup result rather than an exception. -/
theorem C7_exception_captured_not_reraised (jid address : String)
    (radius_m : Int) (flag : Bool) (t0 t1 t2 : Int) (st : JobStore) (e : String) :
    (enqueue_analysis jid address radius_m flag t0 st).1 = jid ∧
    (run_async_job (RunOutcome.err e) t1 t2
        (initialRecord address radius_m flag t0)).status = "failed" ∧
    (run_async_job (RunOutcome.err e) t1 t2
        (initialRecord address radius_m flag t0)).error = some e ∧
    (run_async_job (RunOutcome.err e) t1 t2
        (initialRecord address radius_m flag t0)).result = none ∧
    get_job_status_local jid
        (jobsWrite jid (run_async_job (RunOutcome.err e) t1 t2
          (initialRecord address radius_m flag t0))
          (enqueue_analysis jid address radius_m flag t0 st).2) =
      some (run_async_job (RunOutcome.err e) t1 t2
        (initialRecord address radius_m flag t0)) := by
  refine ⟨rfl, rfl, rfl, rfl, ?_⟩
  simp [get_job_status_local, jobsWrite]

/-- Full `JobQueue.enqueue_analysis`: durable branch hands the work to RQ
(raising the transport error when Redis is unreachable — the code wraps
nothing in a `try` here) and returns the backend's id; local branch records
the `queued` entry, schedules the task, and returns the fresh id. -/
def enqueue_analysis_dispatch (backend : Backend) (reachable : Bool)
    (jid : String) (address : String) (radius_m : Int) (flag : Bool)
    (t0 : Int) (st : JobStore) : Except String (String × JobStore) :=
  match backend with
  | Backend.durable =>
    if reachable then Except.ok (jid, st)
    else Except.error "redis.exceptions.ConnectionError"
  | Backend.localMem => Except.ok (enqueue_analysis jid address radius_m flag t0 st)

/-- C3: backend selection always yields a backend — the local in-memory
fallback needs no initialization, so the `QueueUnavailable` condition
(neither durable nor local available) is unreachable and enqueue never
silently proceeds without a backend. When the chosen backend is reachable,
enqueue succeeds; the local branch succeeds unconditionally and installs the
`queued` record under the returned id. -/
theorem C3_enqueue_backend_availability (ra : Bool) (url : Option String)
    (reach : Bool) (jid address : String) (radius_m : Int) (flag : Bool)
    (t0 : Int) (st : JobStore) :
    (chooseBackend ra url = Backend.durable ∨
      chooseBackend ra url = Backend.localMem) ∧
    (reach = true →
      ∃ r, enqueue_analysis_dispatch (chooseBackend ra url) reach
        jid address radius_m flag t0 st = Except.ok r) ∧
    (∀ reach2, enqueue_analysis_dispatch Backend.localMem reach2
        jid address radius_m flag t0 st =
      Except.ok (jid, jobsWrite jid (initialRecord address radius_m flag t0) st)) := by
  refine ⟨?_, ?_, ?_⟩
  · by_cases h : (ra && url.isSome : Bool) = true
    · exact Or.inl (by simp [chooseBackend, h])
    · exact Or.inr (by simp [chooseBackend, h])
  · intro hr
    subst hr
    cases hb : chooseBackend ra url with
    | durable => exact ⟨(jid, st), by simp [enqueue_analysis_dispatch]⟩
    | localMem =>
      exact ⟨(jid, jobsWrite jid (initialRecord address radius_m flag t0) st),
        by simp [enqueue_analysis_dispatch, enqueue_analysis]⟩
  · intro reach2
    simp [enqueue_analysis_dispatch, enqueue_analysis]

/-- C4: the durable branch of `get_job_status` reports each reachable native
RQ status under the four-state vocabulary (for jobs this system enqueues —
no dependencies, scheduling or cancellation — the pass-through of
`job.get_status()` lands exactly in `{queued, started, finished, failed}`),
attaches `result` exactly when the job is finished, and attaches an `error`
derived from `str(job.exc_info)` exactly when it is failed; a missing job is
not-found. -/
theorem C4_durable_status_translation (job_id : String) (j : RqJob) :
    get_job_status_durable job_id none = none ∧
    ∃ d, get_job_status_durable job_id (some j) = some d ∧
      d.status = rqStatusStr j.nativeStatus ∧
      d.status ∈ ["queued", "started", "finished", "failed"] ∧
      (j.nativeStatus = RqStatus.finished → d.result = j.result) ∧
      (j.nativeStatus ≠ RqStatus.finished → d.result = none) ∧
      (j.nativeStatus = RqStatus.failed → d.error = some (pyStrOpt j.excInfo)) ∧
      (j.nativeStatus ≠ RqStatus.failed → d.error = none) := by
  refine ⟨rfl, _, rfl, rfl, ?_, ?_, ?_, ?_, ?_⟩
  · cases j.nativeStatus <;> simp [rqStatusStr]
  · intro h; simp [h, RqStatus.isFinished]
  · intro h; cases hs : j.nativeStatus <;> simp_all [RqStatus.isFinished]
  · intro h; simp [h, RqStatus.isFailed]
  · intro h; cases hs : j.nativeStatus <;> simp_all [RqStatus.isFailed]

set_option maxRecDepth 400000 in
/-- C6 counterexample: an unexpired cached value can exist for the request's
key and yet `analyze_async` still enqueues. The handler's check is Python
truthiness (`if cached_result:`), and an empty dict is falsy: with the empty
object `{}` freshly cached under the request's own key, the cache read
returns it, but the response is the fresh dispatcher id with status
`queued` and the dispatcher is invoked — not `job_id="cached"`. -/
theorem C6_cache_first_counterexample :
    (get_cached_result (generate_cache_key "1 Main St" 800 true) 0
        (cache_result (generate_cache_key "1 Main St" 800 true) (JVal.jobj [])
          3600 0 emptyCache)).1 = some (JVal.jobj []) ∧
    (analyze_async "1 Main St" 800 true 0 "j1"
        (cache_result (generate_cache_key "1 Main St" 800 true) (JVal.jobj [])
          3600 0 emptyCache) emptyJobs).1.job_id = "j1" ∧
    (analyze_async "1 Main St" 800 true 0 "j1"
        (cache_result (generate_cache_key "1 Main St" 800 true) (JVal.jobj [])
          3600 0 emptyCache) emptyJobs).1.status = "queued" ∧
    (analyze_async "1 Main St" 800 true 0 "j1"
        (cache_result (generate_cache_key "1 Main St" 800 true) (JVal.jobj [])
          3600 0 emptyCache) emptyJobs).2.2.2 = true := by
  refine ⟨?_, ?_, ?_, ?_⟩ <;> rfl

/-- C6 (amended: the cache hit must be truthy): `analyze_async` reads the
cache under the key of the request parameters first; when the read yields a
truthy value it answers `job_id="cached"`, `status="finished"` without
invoking the dispatcher, and when the read yields `None` or a falsy value
(empty dict) it invokes the dispatcher and answers the fresh job id with
status `queued`. -/
theorem C6_analyze_async_contract (address : String) (radius_m : Int)
    (flag : Bool) (now : Int) (jid : String) (cst : CacheState) (jst : JobStore) :
    (pyTruthyOpt (get_cached_result
        (generate_cache_key address radius_m flag) now cst).1 = true →
      analyze_async address radius_m flag now jid cst jst =
        ({ job_id := "cached", status := "finished",
           message := "Result retrieved from cache" },
         (get_cached_result (generate_cache_key address radius_m flag) now cst).2,
         jst, false)) ∧
    (pyTruthyOpt (get_cached_result
        (generate_cache_key address radius_m flag) now cst).1 = false →
      analyze_async address radius_m flag now jid cst jst =
        ({ job_id := jid, status := "queued",
           message := "Analysis job has been queued" },
         (get_cached_result (generate_cache_key address radius_m flag) now cst).2,
         (enqueue_analysis jid address radius_m flag now jst).2, true)) := by
  constructor
  · intro h; simp [analyze_async, h]
  · intro h; simp [analyze_async, h, enqueue_analysis]

/-- Every hex digit character is one of `0-9a-f`; in particular never `'j'`. -/
theorem hexDigitChar_ne_j (n : Nat) : hexDigitChar n ≠ 'j' := by
  rcases Nat.lt_or_ge n 16 with h | h
  · interval_cases n <;> decide
  · rw [hexDigitChar, List.getD_eq_default]
    · decide
    · simpa using h

/-- `'j'` never occurs in an MD5 hexdigest. -/
theorem md5Hex_no_j (s : String) : 'j' ∉ (md5Hex s).data := by
  intro hmem
  rcases List.mem_map.mp hmem with ⟨n, _, hn⟩
  exact hexDigitChar_ne_j n hn

/-- The value component of a cache read depends only on the file stored under
the read key. -/
theorem get_cached_result_fst_congr (k : String) (now : Int)
    (st1 st2 : CacheState) (h : st1 k = st2 k) :
    (get_cached_result k now st1).1 = (get_cached_result k now st2).1 := by
  unfold get_cached_result
  rw [h]
  cases st2 k with
  | none => rfl
  | some f =>
    cases f with
    | garbage raw => rfl
    | parsed res ca ttl => simp only; split <;> rfl

/-- The opportunistic write in `get_job_result` touches no cache key other
than `f"job_{job_id}"`. -/
theorem get_job_result_cache_ne (job_id : String) (now : Int)
    (cst : CacheState) (jst : JobStore) (k : String)
    (h : k ≠ jobResultCacheKey job_id) :
    (get_job_result job_id now cst jst).2 k = cst k := by
  unfold get_job_result
  split
  · rfl
  · cases jst job_id with
    | none => rfl
    | some rec =>
      simp only
      split
      · cases rec.result with
        | none => rfl
        | some v => simp [cache_result, cacheWrite, h]
      · rfl

/-- C5: for every `job_id` and request triple, the key of the opportunistic
cache write in `GET /result/{job_id}` (`f"job_{job_id}"`, starting with the
letter `j`) differs from the key `generate_cache_key` computes for the
request (an MD5 hexdigest, whose characters are all hex digits); hence
whatever `get_job_result` wrote, the value read by `POST /analyze/async`
under the request's key is unchanged — the opportunistic write path is never
hit by the cache-read path. -/
theorem C5_opportunistic_write_unreachable (job_id address : String)
    (radius_m : Int) (flag : Bool) :
    jobResultCacheKey job_id ≠ generate_cache_key address radius_m flag ∧
    ∀ (now now2 : Int) (cst : CacheState) (jst : JobStore),
      (get_cached_result (generate_cache_key address radius_m flag) now2
        ((get_job_result job_id now cst jst).2)).1 =
      (get_cached_result (generate_cache_key address radius_m flag) now2 cst).1 := by
  have hne : jobResultCacheKey job_id ≠ generate_cache_key address radius_m flag := by
    intro h
    have hj : 'j' ∈ (jobResultCacheKey job_id).data := by
      simp only [jobResultCacheKey, String.data_append, List.mem_append]
      exact Or.inl (by decide)
    rw [congrArg String.data h] at hj
    exact md5Hex_no_j (keyString address radius_m flag) hj
  refine ⟨hne, ?_⟩
  intro now now2 cst jst
  exact get_cached_result_fst_congr _ now2 _ _
    (get_job_result_cache_ne job_id now cst jst _ (Ne.symm hne))

/-! ## Injectivity of the pre-hash key string -/

/-- Decimal value of a little-endian digit list. -/
def decVal : List Nat → Nat
| [] => 0
| d :: t => d + 10 * decVal t

/-- `natDigsAux` with enough fuel reconstructs its input. -/
theorem natDigsAux_val (fuel : Nat) : ∀ n, n ≤ fuel → decVal (natDigsAux fuel n) = n := by
  induction fuel with
  | zero =>
    intro n h
    interval_cases n
    rfl
  | succ k ih =>
    intro n h
    rw [natDigsAux]
    by_cases h0 : n = 0
    · simp [h0, decVal]
    · rw [if_neg h0]
      have hd : n / 10 ≤ k := by
        have := Nat.div_lt_self (Nat.pos_of_ne_zero h0) (by norm_num : 1 < 10)
        omega
      rw [decVal, ih (n / 10) hd]
      exact Nat.mod_add_div n 10

/-- `decVal` recovers `n` from its digit list. -/
theorem natDigs_val (n : Nat) : decVal (natDigs n) = n :=
  natDigsAux_val n n le_rfl

/-- Every entry produced by `natDigsAux` is a decimal digit. -/
theorem natDigsAux_lt (fuel : Nat) : ∀ n d, d ∈ natDigsAux fuel n → d < 10 := by
  induction fuel with
  | zero => intro n d h; simp [natDigsAux] at h
  | succ k ih =>
    intro n d h
    rw [natDigsAux] at h
    by_cases h0 : n = 0
    · simp [h0] at h
    · rw [if_neg h0] at h
      rcases List.mem_cons.mp h with h1 | h1
      · subst h1; exact Nat.mod_lt n (by norm_num)
      · exact ih (n / 10) d h1

/-- Every entry of `natDigs` is a decimal digit. -/
theorem natDigs_lt (n d : Nat) (h : d ∈ natDigs n) : d < 10 :=
  natDigsAux_lt n n d h

/-- `decDigitChar` always yields one of `'0'..'9'`. -/
theorem decDigitChar_mem (d : Nat) :
    decDigitChar d ∈ ['0', '1', '2', '3', '4'] ++ ['5', '6', '7', '8', '9'] := by
  rcases Nat.lt_or_ge d 10 with h | h
  · interval_cases d <;> decide
  · rw [decDigitChar, List.getD_eq_default]
    · decide
    · simpa using h

/-- `decDigitChar` is injective on decimal digits. -/
theorem decDigitChar_inj (d1 d2 : Nat) (h1 : d1 < 10) (h2 : d2 < 10)
    (h : decDigitChar d1 = decDigitChar d2) : d1 = d2 := by
  have hf : ∀ a b : Fin 10, decDigitChar a.val = decDigitChar b.val → a = b := by decide
  exact congrArg Fin.val (hf ⟨d1, h1⟩ ⟨d2, h2⟩ h)

/-- Lists of decimal digits with equal `decDigitChar` images are equal. -/
theorem map_decDigitChar_inj : ∀ (xs ys : List Nat), (∀ d ∈ xs, d < 10) →
    (∀ d ∈ ys, d < 10) → xs.map decDigitChar = ys.map decDigitChar → xs = ys := by
  intro xs
  induction xs with
  | nil =>
    intro ys _ _ h
    cases ys with
    | nil => rfl
    | cons b u => simp at h
  | cons a t ih =>
    intro ys h1 h2 h
    cases ys with
    | nil => simp at h
    | cons b u =>
      rw [List.map_cons, List.map_cons] at h
      have hab := List.head_eq_of_cons_eq h
      have htu := List.tail_eq_of_cons_eq h
      have ha : a < 10 := h1 a (by simp)
      have hb : b < 10 := h2 b (by simp)
      rw [decDigitChar_inj a b ha hb hab,
        ih u (fun d hd => h1 d (by simp [hd])) (fun d hd => h2 d (by simp [hd])) htu]

/-- Every character of `natStr n` is a decimal digit character. -/
theorem natStr_chars (n : Nat) :
    ∀ c ∈ (natStr n).data, c ∈ ['0', '1', '2', '3', '4'] ++ ['5', '6', '7', '8', '9'] := by
  intro c hc
  rw [natStr] at hc
  by_cases h0 : n = 0
  · rw [if_pos h0] at hc
    rcases List.mem_singleton.mp hc with rfl
    decide
  · rw [if_neg h0] at hc
    have hc2 : c ∈ ((natDigs n).map decDigitChar).reverse := hc
    rcases List.mem_map.mp (List.mem_reverse.mp hc2) with ⟨d, _, rfl⟩
    exact decDigitChar_mem d

/-- Python `str` on nonnegative integers is injective. -/
theorem natStr_inj (n m : Nat) (h : natStr n = natStr m) : n = m := by
  have hd := congrArg String.data h
  rw [natStr, natStr] at hd
  by_cases hn : n = 0 <;> by_cases hm : m = 0
  · omega
  · rw [if_pos hn, if_neg hm] at hd
    have hd2 : ['0'] = ((natDigs m).map decDigitChar).reverse := hd
    have hd3 : (natDigs m).map decDigitChar = ['0'] := by
      have := congrArg List.reverse hd2
      simpa [List.reverse_reverse] using this.symm
    have : natDigs m = [0] := by
      refine map_decDigitChar_inj (natDigs m) [0] (fun d hd => natDigs_lt m d hd) ?_ ?_
      · intro d hd; rcases List.mem_singleton.mp hd with rfl; norm_num
      · simpa [decDigitChar] using hd3
    have hv := natDigs_val m
    rw [this] at hv
    simp [decVal] at hv
    omega
  · rw [if_neg hn, if_pos hm] at hd
    have hd2 : ((natDigs n).map decDigitChar).reverse = ['0'] := hd
    have hd3 : (natDigs n).map decDigitChar = ['0'] := by
      have := congrArg List.reverse hd2
      simpa [List.reverse_reverse] using this
    have : natDigs n = [0] := by
      refine map_decDigitChar_inj (natDigs n) [0] (fun d hd => natDigs_lt n d hd) ?_ ?_
      · intro d hd; rcases List.mem_singleton.mp hd with rfl; norm_num
      · simpa [decDigitChar] using hd3
    have hv := natDigs_val n
    rw [this] at hv
    simp [decVal] at hv
    omega
  · rw [if_neg hn, if_neg hm] at hd
    have hd2 : ((natDigs n).map decDigitChar).reverse =
        ((natDigs m).map decDigitChar).reverse := hd
    have hd3 := List.reverse_injective hd2
    have := map_decDigitChar_inj (natDigs n) (natDigs m)
      (fun d h2 => natDigs_lt n d h2) (fun d h2 => natDigs_lt m d h2) hd3
    have hv1 := natDigs_val n
    rw [this, natDigs_val m] at hv1
    exact hv1.symm

/-- `'-'` never occurs in `natStr`. -/
theorem minus_not_in_natStr (n : Nat) : '-' ∉ (natStr n).data := by
  intro h
  have := natStr_chars n _ h
  exact absurd this (by decide)

/-- `'_'` never occurs in `natStr`. -/
theorem underscore_not_in_natStr (n : Nat) : '_' ∉ (natStr n).data := by
  intro h
  have := natStr_chars n _ h
  exact absurd this (by decide)

/-- `'_'` never occurs in `intStr`. -/
theorem underscore_not_in_intStr (i : Int) : '_' ∉ (intStr i).data := by
  rw [intStr]
  split
  · intro h
    rw [String.data_append] at h
    rcases List.mem_append.mp h with h2 | h2
    · exact absurd h2 (by decide)
    · exact underscore_not_in_natStr _ h2
  · exact underscore_not_in_natStr _

/-- `'_'` never occurs in `pyBoolStr`. -/
theorem underscore_not_in_pyBoolStr (b : Bool) : '_' ∉ (pyBoolStr b).data := by
  cases b <;> decide

/-- A negative `intStr` is never equal to a nonnegative one: one starts with
`'-'`, the other contains only digits. -/
theorem natStr_ne_minus_append (n m : Nat) : natStr n ≠ "-" ++ natStr m := by
  intro h
  have hd := congrArg String.data h
  rw [String.data_append] at hd
  have : '-' ∈ (natStr n).data := by
    rw [hd]
    exact List.mem_append.mpr (Or.inl (by decide))
  exact minus_not_in_natStr n this

/-- Python `str` on `int` is injective. -/
theorem intStr_inj (i j : Int) (h : intStr i = intStr j) : i = j := by
  rw [intStr, intStr] at h
  by_cases hi : i < 0 <;> by_cases hj : j < 0
  · rw [if_pos hi, if_pos hj] at h
    have hd := congrArg String.data h
    rw [String.data_append, String.data_append] at hd
    have hdata := List.append_cancel_left hd
    have : i.natAbs = j.natAbs := natStr_inj _ _ (String.ext hdata)
    omega
  · rw [if_pos hi, if_neg hj] at h
    exact absurd h.symm (natStr_ne_minus_append _ _)
  · rw [if_neg hi, if_pos hj] at h
    exact absurd h (natStr_ne_minus_append _ _)
  · rw [if_neg hi, if_neg hj] at h
    have := natStr_inj _ _ h
    omega

/-- Python `str` on `bool` is injective. -/
theorem pyBoolStr_inj (b1 b2 : Bool) (h : pyBoolStr b1 = pyBoolStr b2) : b1 = b2 := by
  cases b1 <;> cases b2 <;> first | rfl | (exact absurd h (by decide))

/-- Cancellation across a reserved separator: when neither left part contains
`'_'`, an equality `u ++ '_' :: x = v ++ '_' :: y` splits into `u = v` and
`x = y` — the first `'_'` can only be the separator itself. -/
theorem append_underscore_cancel : ∀ (u v x y : List Char), '_' ∉ u → '_' ∉ v →
    u ++ '_' :: x = v ++ '_' :: y → u = v ∧ x = y := by
  intro u
  induction u with
  | nil =>
    intro v x y _ hv h
    cases v with
    | nil => simpa using h
    | cons c cs =>
      rw [List.nil_append, List.cons_append] at h
      have hc := List.head_eq_of_cons_eq h
      exact absurd (hc ▸ List.mem_cons_self c cs) hv
  | cons a t ih =>
    intro v x y hu hv h
    cases v with
    | nil =>
      rw [List.nil_append, List.cons_append] at h
      have hc := List.head_eq_of_cons_eq h
      exact absurd (hc ▸ List.mem_cons_self a t) hu
    | cons b u2 =>
      rw [List.cons_append, List.cons_append] at h
      have hab := List.head_eq_of_cons_eq h
      have htail := List.tail_eq_of_cons_eq h
      have hrec := ih u2 x y (fun hm => hu (List.mem_cons_of_mem a hm))
        (fun hm => hv (List.mem_cons_of_mem b hm)) htail
      exact ⟨by rw [hab, hrec.1], hrec.2⟩

/-- Reversing the three-part key layout. -/
theorem reverse_three_part (a s t : List Char) :
    (a ++ '_' :: (s ++ '_' :: t)).reverse =
      t.reverse ++ '_' :: (s.reverse ++ '_' :: a.reverse) := by
  simp [List.reverse_append, List.reverse_cons, List.append_assoc]

/-- The key string `f"{address}_{radius_m}_{include_long_context}"` determines
its three components: the radius and flag renderings contain no `'_'`, so
parsing from the right is unambiguous even though the address may contain
`'_'`. -/
theorem keyString_inj (a1 a2 : String) (r1 r2 : Int) (f1 f2 : Bool)
    (h : keyString a1 r1 f1 = keyString a2 r2 f2) :
    a1 = a2 ∧ r1 = r2 ∧ f1 = f2 := by
  have hd := congrArg String.data h
  have e : ∀ (a : String) (r : Int) (f : Bool), (keyString a r f).data =
      a.data ++ '_' :: ((intStr r).data ++ '_' :: (pyBoolStr f).data) := by
    intro a r f
    simp [keyString, String.data_append]
  rw [e, e] at hd
  have hrev := congrArg List.reverse hd
  rw [reverse_three_part, reverse_three_part] at hrev
  have h1 := append_underscore_cancel _ _ _ _
    (fun hm => underscore_not_in_pyBoolStr f1 (List.mem_reverse.mp hm))
    (fun hm => underscore_not_in_pyBoolStr f2 (List.mem_reverse.mp hm)) hrev
  have h2 := append_underscore_cancel _ _ _ _
    (fun hm => underscore_not_in_intStr r1 (List.mem_reverse.mp hm))
    (fun hm => underscore_not_in_intStr r2 (List.mem_reverse.mp hm)) h1.2
  have hf : f1 = f2 := by
    apply pyBoolStr_inj
    apply congrArg String.mk
    exact List.reverse_injective h1.1
  have hr : r1 = r2 := by
    apply intStr_inj
    apply congrArg String.mk
    exact List.reverse_injective h2.1
  have ha : a1 = a2 := by
    apply congrArg String.mk
    exact List.reverse_injective h2.2
  exact ⟨ha, hr, hf⟩

/-! ## MD5 has collisions: pigeonhole over the 128-bit digest -/

/-- Value of a little-endian list of hex digits. -/
def hexVal16 : List Nat → Nat
| [] => 0
| d :: t => d + 16 * hexVal16 t

/-- `hexVal16` of a digit list is bounded by `16 ^ length`. -/
theorem hexVal16_lt : ∀ xs : List Nat, (∀ d ∈ xs, d < 16) →
    hexVal16 xs < 16 ^ xs.length := by
  intro xs
  induction xs with
  | nil => intro _; simp [hexVal16]
  | cons d t ih =>
    intro h
    have hd : d < 16 := h d (by simp)
    have ht := ih (fun x hx => h x (by simp [hx]))
    calc hexVal16 (d :: t) = d + 16 * hexVal16 t := rfl
      _ < 16 + 16 * hexVal16 t := by omega
      _ = 16 * (hexVal16 t + 1) := by ring
      _ ≤ 16 * 16 ^ t.length := Nat.mul_le_mul_left 16 ht
      _ = 16 ^ (d :: t).length := by rw [List.length_cons, pow_succ]; ring

/-- `hexVal16` is injective on equal-length lists of hex digits. -/
theorem hexVal16_inj : ∀ xs ys : List Nat, xs.length = ys.length →
    (∀ d ∈ xs, d < 16) → (∀ d ∈ ys, d < 16) →
    hexVal16 xs = hexVal16 ys → xs = ys := by
  intro xs
  induction xs with
  | nil =>
    intro ys hl _ _ _
    cases ys with
    | nil => rfl
    | cons b u => simp at hl
  | cons d t ih =>
    intro ys hl h1 h2 hv
    cases ys with
    | nil => simp at hl
    | cons e u =>
      have hd : d < 16 := h1 d (by simp)
      have he : e < 16 := h2 e (by simp)
      rw [show hexVal16 (d :: t) = d + 16 * hexVal16 t from rfl,
        show hexVal16 (e :: u) = e + 16 * hexVal16 u from rfl] at hv
      have hde : d = e := by omega
      have hvt : hexVal16 t = hexVal16 u := by omega
      rw [hde, ih u (by simpa using hl) (fun x hx => h1 x (by simp [hx]))
        (fun x hx => h2 x (by simp [hx])) hvt]

/-- `leBytes` always yields exactly `k` bytes. -/
theorem leBytes_length (k : Nat) : ∀ n, (leBytes k n).length = k := by
  induction k with
  | zero => intro n; rfl
  | succ j ih => intro n; simp [leBytes, ih]

/-- The MD5 digest is 16 bytes. -/
theorem md5DigestBytes_length (msg : List Nat) : (md5DigestBytes msg).length = 16 := by
  simp [md5DigestBytes, leBytes_length]

/-- Flat-mapping a two-element producer doubles the length. -/
theorem flatMap_pair_length (l : List Nat) (f g : Nat → Nat) :
    (l.flatMap (fun b => [f b, g b])).length = 2 * l.length := by
  induction l with
  | nil => rfl
  | cons b t ih => simp [List.flatMap_cons, ih]; omega

/-- The MD5 hexdigest has 32 hex digits. -/
theorem md5Nibbles_length (msg : List Nat) : (md5Nibbles msg).length = 32 := by
  rw [md5Nibbles, flatMap_pair_length, md5DigestBytes_length]

/-- Every entry of `md5Nibbles` is a hex digit. -/
theorem md5Nibbles_lt (msg : List Nat) (d : Nat) (h : d ∈ md5Nibbles msg) : d < 16 := by
  rw [md5Nibbles] at h
  rcases List.mem_flatMap.mp h with ⟨b, _, hb⟩
  rcases List.mem_cons.mp hb with rfl | hb2
  · exact Nat.mod_lt _ (by norm_num)
  · rcases List.mem_singleton.mp hb2 with rfl
    exact Nat.mod_lt _ (by norm_num)

/-- The 128-bit value of the MD5 digest of a string. -/
def md5Val (s : String) : Nat := hexVal16 (md5Nibbles (strBytes s))

/-- The digest value fits in 128 bits. -/
theorem md5Val_lt (s : String) : md5Val s < 16 ^ 32 := by
  rw [md5Val]
  have := hexVal16_lt (md5Nibbles (strBytes s)) (fun d hd => md5Nibbles_lt _ d hd)
  rwa [md5Nibbles_length] at this

/-- The MD5 digest of a string, packed into the finite type `Fin (16 ^ 32)`. -/
def md5Fin (s : String) : Fin (16 ^ 32) := ⟨md5Val s, md5Val_lt s⟩

/-- Equal packed digests force equal hexdigests. -/
theorem md5Fin_to_hex (s t : String) (h : md5Fin s = md5Fin t) :
    md5Hex s = md5Hex t := by
  rw [md5Fin, md5Fin] at h
  simp only [Fin.mk.injEq] at h
  have hval : md5Val s = md5Val t := h
  rw [md5Val, md5Val] at hval
  have hnib : md5Nibbles (strBytes s) = md5Nibbles (strBytes t) :=
    hexVal16_inj (md5Nibbles (strBytes s)) (md5Nibbles (strBytes t))
      (by rw [md5Nibbles_length, md5Nibbles_length])
      (fun d hd => md5Nibbles_lt _ d hd) (fun d hd => md5Nibbles_lt _ d hd) hval
  rw [md5Hex, md5Hex, hnib]

/-- An infinite family of pairwise distinct addresses. -/
def addrRep (n : Nat) : String := String.mk (List.replicate n 'a')

/-- Distinct lengths give distinct addresses. -/
theorem addrRep_inj (n m : Nat) (h : addrRep n = addrRep m) : n = m := by
  have := congrArg (fun s => s.data.length) h
  simpa [addrRep] using this

set_option maxHeartbeats 2000000 in
/-- C8 counterexample: it is not true that changing one input always changes
the key. `generate_cache_key` maps infinitely many distinct addresses (holding
radius and flag fixed) into the finite set of 128-bit MD5 digests, so by
pigeonhole two distinct addresses share a key; that is, the universal
no-collision reading of the claim is false, as the spec itself hedges with
"across the tested domain". -/
theorem C8_key_collision_exists :
    ¬ (∀ (a1 a2 : String) (r : Int) (f : Bool), a1 ≠ a2 →
        generate_cache_key a1 r f ≠ generate_cache_key a2 r f) := by
  intro hall
  obtain ⟨n, m, hnm, hF⟩ := Finite.exists_ne_map_eq_of_infinite
    (fun n : Nat => md5Fin (keyString (addrRep n) 800 true))
  have hkey : generate_cache_key (addrRep n) 800 true =
      generate_cache_key (addrRep m) 800 true := by
    rw [generate_cache_key, generate_cache_key]
    exact md5Fin_to_hex (keyString (addrRep n) 800 true)
      (keyString (addrRep m) 800 true) hF
  exact hall (addrRep n) (addrRep m) 800 true
    (fun he => hnm (addrRep_inj n m he)) hkey

set_option maxRecDepth 1000000 in
set_option maxHeartbeats 2000000 in
/-- C8 (amended): `generate_cache_key` is pure and deterministic — identical
inputs always yield the identical key — and the pre-hash key string
`f"{address}_{radius_m}_{include_long_context}"` determines all three inputs
uniquely, so any key collision between different inputs is an MD5 collision
(such collisions exist by pigeonhole but none occurs on the tested domain).
No case or whitespace normalization is applied to the address: on concrete
inputs, case variants, whitespace variants, and changes to the radius or the
flag each produce a different key. -/
theorem C8_key_determinism_and_distinctness (a1 a2 : String) (r1 r2 : Int)
    (f1 f2 : Bool) :
    (a1 = a2 → r1 = r2 → f1 = f2 →
      generate_cache_key a1 r1 f1 = generate_cache_key a2 r2 f2) ∧
    (keyString a1 r1 f1 = keyString a2 r2 f2 → a1 = a2 ∧ r1 = r2 ∧ f1 = f2) ∧
    generate_cache_key "123 Main St" 800 true ≠
      generate_cache_key "123 main st" 800 true ∧
    generate_cache_key "123 Main St" 800 true ≠
      generate_cache_key " 123 Main St" 800 true ∧
    generate_cache_key "123 Main St" 800 true ≠
      generate_cache_key "123 Main St" 801 true ∧
    generate_cache_key "123 Main St" 800 true ≠
      generate_cache_key "123 Main St" 800 false := by
  refine ⟨?_, keyString_inj a1 a2 r1 r2 f1 f2, by decide, by decide, by decide, by decide⟩
  intro h1 h2 h3
  rw [h1, h2, h3]
